import Mathlib

/-!
Verification of the multi-domain retrieval-and-answer-synthesis pipeline
(`backend/ingestion.py`, `backend/rag_pipeline.py`, `backend/schemas.py`)
as a shallow embedding in Lean 4.

Modelling conventions:
* Python strings are Lean `String`s; character-level operations (slicing,
  strip, replace of a one-character pattern) are carried out on `String.data`
  (the list of characters), which matches Python's code-point semantics.
* Python floats are modelled as rationals (`ℚ`); `round(x, 3)` is modelled as
  exact round-half-to-even on rationals.
* External capabilities (the Chroma vector store, the chat model, `json.loads`
  applied to the model output, the DuckDuckGo search client, the filesystem
  text extraction, the uuid generator) are passed in as explicit function
  parameters; a Python exception raised by a capability is an `Except` error
  value.
* Fallible repository code returns `Except PyError`; a Python `raise` is an
  `.error` result.
-/

/-- Python `str.strip()` (with no argument): remove leading and trailing
whitespace characters. -/
def pyStrip (s : String) : String :=
  String.mk (((s.data.dropWhile Char.isWhitespace).reverse.dropWhile
    Char.isWhitespace).reverse)

/-- `doc.page_content[:300].replace("\n", " ")` from `ask_question`: the first
300 characters of the chunk text with each newline replaced by a space. -/
def snippet_of (content : String) : String :=
  String.mk ((content.data.take 300).map (fun c => if c = '\n' then ' ' else c))

/-- `os.path.basename` for forward-slash paths: the part of the path after the
last separator. -/
def basename (p : String) : String :=
  String.mk ((p.data.splitOn '/').getLastD p.data)

/-- The last `n` elements of a list (used for repeating `overlap` characters of
the previous chunk at the start of the next one). -/
def lastN (n : Nat) (l : List α) : List α :=
  l.drop (l.length - n)

/-!
## Chunker

Modelled from the spec: `split_text` delegates to the external langchain
`RecursiveCharacterTextSplitter`, whose implementation is not part of this
repository (only its caller `ingestion.split_text` is).  The model follows the
spec's Chunker contract (§4.2): split recursively/hierarchically on the largest
boundary (paragraph, then sentence, then word, then character) that keeps each
chunk at most `chunk_size` characters, with `overlap` characters repeated
between consecutive chunks, deterministically.
-/

/-- The hierarchical boundaries of the Chunker model: paragraph (line break),
sentence (full stop), word (space); after these comes the character level. -/
def chunk_boundaries : List Char := ['\n', '.', ' ']

/-- Split at every occurrence of the boundary character, each piece keeping its
trailing boundary character (so that concatenating the pieces restores the
text). -/
def splitRetain (c : Char) (l : List Char) : List (List Char) :=
  match (l.splitOn c).reverse with
  | [] => []
  | last :: revInit => (revInit.reverse.map (fun p => p ++ [c])) ++ [last]

/-- Greedily merge consecutive pieces into chunks of at most `chunk_size`
characters; when a chunk is closed, its last `overlap` characters are repeated
at the start of the next chunk. -/
def mergePieces (chunk_size overlap : Nat) : List (List Char) → List Char → List (List Char)
  | [], cur => if cur.isEmpty then [] else [cur]
  | p :: ps, cur =>
    if cur.isEmpty then mergePieces chunk_size overlap ps p
    else if (cur ++ p).length ≤ chunk_size then mergePieces chunk_size overlap ps (cur ++ p)
    else cur :: mergePieces chunk_size overlap ps (lastN overlap cur ++ p)

/-- Character-level splitting: cut `chunk_size`-character chunks, stepping by
`chunk_size - overlap` so that `overlap` characters repeat between consecutive
chunks.  `fuel` bounds the recursion; it is always sufficient for the inputs
the wrapper passes. -/
def hardSplit (chunk_size overlap : Nat) : Nat → List Char → List (List Char)
  | 0, text => [text]
  | fuel + 1, text =>
    if text.length ≤ chunk_size then [text]
    else text.take chunk_size ::
      hardSplit chunk_size overlap fuel (text.drop (chunk_size - overlap))

/-- Recursive hierarchical splitting: a text that fits in one chunk is one
chunk; otherwise split at the largest boundary that occurs in the text,
recursively re-split the pieces that are still too large with the smaller
boundaries, and merge the pieces back into chunks of at most `chunk_size`
characters.  `fuel` bounds the recursion; it is always sufficient for the
inputs the wrapper passes. -/
def split_rec (chunk_size overlap : Nat) : Nat → List Char → List Char → List (List Char)
  | 0, _, text => [text]
  | fuel + 1, seps, text =>
    if text.length ≤ chunk_size then [text]
    else
      match seps with
      | [] => hardSplit chunk_size overlap (fuel + 1) text
      | c :: rest =>
        let pieces := splitRetain c text
        if pieces.length ≤ 1 then split_rec chunk_size overlap fuel rest text
        else
          let subs := pieces.flatMap (fun p =>
            if p.length ≤ chunk_size then [p]
            else split_rec chunk_size overlap fuel rest p)
          mergePieces chunk_size overlap subs []

/-- Modelled from the spec: `ingestion.split_text(text, chunk_size=1200,
overlap=150)`.  The langchain `RecursiveCharacterTextSplitter` it wraps is
external to the repository; the model implements the Chunker contract of the
spec (§4.2) with the same default parameters as the source. -/
def split_text (text : String) (chunk_size : Nat := 1200) (overlap : Nat := 150) :
    List String :=
  (split_rec chunk_size overlap (text.length + 1) chunk_boundaries text.data).map
    String.mk

/-!
## Ingestion (`ingestion.ingest_files`)

The metadata dict written for every chunk has exactly the keys
`filename`, `chunk_id`, `doc_id` (and in particular never a `page` key).
-/

/-- The per-chunk metadata dict built by `ingest_files`:
`{"filename": basename(file_path), "chunk_id": i, "doc_id": str(uuid.uuid4())}`. -/
structure ChunkMeta where
  filename : String
  chunk_id : Nat
  doc_id : String
  deriving Repr, DecidableEq

/-- The running state of the `ingest_files` loop: the texts and metadata
upserted into the Chroma collection so far, the running chunk count, and the
position in the uuid supply. -/
structure IngestState where
  collection : String
  entries : List (String × ChunkMeta)
  total_chunks : Nat
  next_id : Nat
  deriving Repr, DecidableEq

/-- One iteration of the `for file_path in files` loop of `ingest_files`:
extract the text, skip the file when the stripped text is empty, otherwise
chunk it, build the per-chunk metadata, and upsert chunks with their metadata
(keyed by the fresh `doc_id`s) into the collection. -/
def ingest_step (extract : String → String) (uuid : Nat → String)
    (st : IngestState) (file_path : String) : IngestState :=
  let text := extract file_path
  if pyStrip text = "" then st
  else
    let chunks := split_text text
    let metadatas := chunks.enum.map (fun ic =>
      ChunkMeta.mk (basename file_path) ic.1 (uuid (st.next_id + ic.1)))
    { collection := st.collection,
      entries := st.entries ++ (chunks.zip metadatas),
      total_chunks := st.total_chunks + chunks.length,
      next_id := st.next_id + chunks.length }

/-- `ingestion.ingest_files(files, category)`.  The filesystem-bound
`extract_text` and `uuid.uuid4` are passed in as capabilities: `extract` maps
a path to the extracted text (any extraction failure is already degraded to
the empty string inside `extract_text`), and `uuid` is the stream of generated
identifiers.  The Chroma collection named `docs_<category>` is modelled by the
`entries` accumulated in the result; the function's Python return value is the
`total_chunks` field. -/
def ingest_files (extract : String → String) (uuid : Nat → String)
    (files : List String) (category : String := "general") : IngestState :=
  files.foldl (ingest_step extract uuid)
    { collection := "docs_" ++ category, entries := [], total_chunks := 0, next_id := 0 }

/-!
## Schemas (`schemas.py`)
-/

/-- `schemas.Source` (pydantic): metadata for a retrieved document chunk.
The optional fields carry pydantic's declared defaults. -/
structure Source where
  doc_id : String
  filename : String
  page : Option Int := none
  score : Option ℚ := none
  snippet : Option String := none
  domain : String := "unknown"
  deriving Repr, DecidableEq

/-- `schemas.RAGAnswer` (pydantic): the structured response of the pipeline. -/
structure RAGAnswer where
  answer : String
  confidence : ℚ
  missing_info : List String
  citations : List Source
  reasoning_summary : Option String := none
  suggestions : List String := []
  deriving Repr, DecidableEq

/-!
## RAG pipeline (`rag_pipeline.py`)
-/

/-- A Python exception escaping the pipeline: the `ValueError` raised when no
vectorstore loads, or a `KeyError` for a missing dict key. -/
inductive PyError where
  | valueError : PyError
  | keyError : String → PyError
  deriving Repr, DecidableEq

/-- The metadata dict carried by a document returned from a similarity search;
each key may be absent (dicts coming from ingestion carry `filename` and
`doc_id` and never `page`). -/
structure Meta where
  filename : Option String := none
  doc_id : Option String := none
  page : Option Int := none
  deriving Repr, DecidableEq

/-- A document as returned by `similarity_search_with_score` (before the
retrieval loop tags it). -/
structure RawDoc where
  page_content : String
  meta : Meta
  deriving Repr, DecidableEq

/-- A document after the retrieval loop has set `metadata["domain"]` and
`metadata["score"]`; those two keys are always present from then on, so they
are plain fields. -/
structure TaggedDoc where
  page_content : String
  meta : Meta
  domain : String
  score : ℚ
  deriving Repr, DecidableEq

/-- A domain's Chroma store, as the capability the pipeline consumes:
`store.similarity_search_with_score(question, k)` either raises (`.error`) or
returns scored documents. -/
abbrev Store := String → Nat → Except Unit (List (RawDoc × ℚ))

/-- Round half to even at integer precision (Python's `round`), on exact
rationals. -/
def roundHalfEven (q : ℚ) : ℤ :=
  let f := q.floor
  let r := q - (f : ℚ)
  if r < 1 / 2 then f
  else if 1 / 2 < r then f + 1
  else if f % 2 = 0 then f else f + 1

/-- `round(float(score), 3)` from the retrieval loop, on exact rationals. -/
def round3 (q : ℚ) : ℚ := (roundHalfEven (q * 1000) : ℚ) / 1000

/-- The body of the retrieval loop: `doc.metadata["domain"] = domain;
doc.metadata["score"] = round(float(score), 3)`. -/
def tagDoc (domain : String) (p : RawDoc × ℚ) : TaggedDoc :=
  { page_content := p.1.page_content, meta := p.1.meta,
    domain := domain, score := round3 p.2 }

/-- The retrieval loop of `ask_question`: for each `(domain, store)` pair, ask
the store for the top `top_k` scored matches, tag them with the domain and the
rounded score, and append them to `all_results`; a store whose query raises
contributes nothing. -/
def collect_results (question : String) (top_k : Nat) :
    List (String × Store) → List TaggedDoc
  | [] => []
  | (domain, store) :: rest =>
    (match store question top_k with
     | .error _ => []
     | .ok docs => docs.map (tagDoc domain)) ++ collect_results question top_k rest

/-- The fixed domain list of `load_all_vectorstores` (and the collection name
scheme `docs_<domain>`). -/
def domain_collections : List String := ["finance", "hr", "sustainability", "general"]

/-- The loop of `load_all_vectorstores`: a domain whose Chroma construction
raises (`load` returns `none`) is skipped with a warning. -/
def load_stores (load : String → Option Store) : List String → List (String × Store)
  | [] => []
  | d :: rest =>
    (match load d with
     | some s => [(d, s)]
     | none => []) ++ load_stores load rest

/-- `rag_pipeline.load_all_vectorstores`, with the Chroma constructor for the
collection `docs_<domain>` abstracted as the `load` capability. -/
def load_all_vectorstores (load : String → Option Store) : List (String × Store) :=
  load_stores load domain_collections

/-- `meta.get("filename", "unknown")`: the deduplication key of the
context-building loop. -/
def filenameKey (d : TaggedDoc) : String := d.meta.filename.getD "unknown"

/-- The deduplication of the context-building loop: `seen_files` is the list of
filenames already encountered (the Python `set` only ever undergoes membership
tests and insertions, so a list models it exactly); a document whose filename
was already seen is skipped, a new one is retained. -/
def dedupAux : List TaggedDoc → List String → List TaggedDoc
  | [], _ => []
  | d :: rest, seen =>
    if filenameKey d ∈ seen then dedupAux rest seen
    else d :: dedupAux rest (filenameKey d :: seen)

/-- The documents retained by the context-building loop, in retrieval order. -/
def dedupByFile (l : List TaggedDoc) : List TaggedDoc := dedupAux l []

/-- The `Source` appended to `citations` for one retained document, including
the subsequent `citations[-1].domain = meta.get("domain", "unknown")`
assignment (the loop has always set the `domain` key by this point). -/
def mkSource (d : TaggedDoc) : Source :=
  { doc_id := d.meta.doc_id.getD "",
    filename := filenameKey d,
    page := some (d.meta.page.getD 1),
    score := some d.score,
    snippet := some (snippet_of d.page_content),
    domain := d.domain }

/-- The citations list built by `ask_question` from the retrieval results. -/
def citations_of (all_results : List TaggedDoc) : List Source :=
  (dedupByFile all_results).map mkSource

/-- The context block appended for one retained document:
`[filename | domain | score=S] → snippet`. -/
def mkBlock (d : TaggedDoc) : String :=
  "[" ++ filenameKey d ++ " | " ++ d.domain ++ " | score=" ++ toString d.score ++
    "] → " ++ snippet_of d.page_content

/-- The user prompt sent to the model: the question followed by the joined
context blocks (the fixed SYSTEM_PROMPT is part of the `llm` capability). -/
def build_prompt (question : String) (all_results : List TaggedDoc) : String :=
  "Question: " ++ question ++ "\n\nContext:\n" ++
    String.intercalate "\n\n" ((dedupByFile all_results).map mkBlock)

/-- The fields `ask_question` reads from the dict produced by `json.loads` on
the model output, each possibly absent, typed per the output contract.  The
`citations` key of that dict is never read by the code and is omitted. -/
structure ModelJson where
  answer : Option String := none
  confidence : Option ℚ := none
  missing_info : Option (List String) := none
  reasoning_summary : Option String := none
  suggestions : Option (List String) := none
  deriving Repr, DecidableEq

/-- Python truthiness of `data.get("missing_info")`: an absent key and an empty
list are falsy. -/
def truthyList : Option (List String) → Bool
  | some (_ :: _) => true
  | _ => false

/-- The dict built in the `except` branch when `json.loads` fails (its
`"citations": []` entry is never read and is omitted, like every unread
`citations` key). -/
def fallback_data (content : String) : ModelJson :=
  { answer := some (pyStrip content),
    confidence := some (1 / 2),
    missing_info := some [],
    reasoning_summary := some "Partial fallback response.",
    suggestions := some [] }

/-- One result dict of `ddgs.text(...)`; only its `body` key is read. -/
structure DDGResult where
  body : String
  deriving Repr, DecidableEq

/-- The per-topic loop of `auto_enrich`: a topic whose search raises, or
returns no results, contributes nothing; a successful topic contributes the
formatted string built from the first 200 characters of the result body. -/
def enrich_loop (search : String → Except Unit (List DDGResult)) :
    List String → List String
  | [] => []
  | topic :: rest =>
    (match search topic with
     | .error _ => []
     | .ok [] => []
     | .ok (r :: _) =>
       ["Auto-enriched info for '" ++ topic ++ "': " ++ String.mk (r.body.data.take 200)]) ++
    enrich_loop search rest

/-- `rag_pipeline.auto_enrich(missing_topics)`, with the DuckDuckGo client
abstracted as the `search` capability. -/
def auto_enrich (search : String → Except Unit (List DDGResult))
    (missing_topics : List String) : List String :=
  if missing_topics.isEmpty then [] else enrich_loop search missing_topics

/-- The enrichment stage of `ask_question`: when `data.get("missing_info")` is
truthy, run `auto_enrich`; a non-empty enrichment result is appended by
`data["suggestions"].extend(auto_data)`, which raises `KeyError` when the
parsed dict has no `suggestions` key. -/
def apply_enrichment (search : String → Except Unit (List DDGResult))
    (data : ModelJson) : Except PyError ModelJson :=
  let auto_data :=
    if truthyList data.missing_info then auto_enrich search (data.missing_info.getD [])
    else []
  if auto_data.isEmpty then .ok data
  else
    match data.suggestions with
    | none => .error (.keyError "suggestions")
    | some s => .ok { data with suggestions := some (s ++ auto_data) }

/-- The `all_domains` set of the coverage step. -/
def all_domains : List String := ["finance", "hr", "sustainability", "general"]

/-- `all_domains - retrieved_domains`, as the list of known domains absent from
the domains of the citations.  (Python iterates the resulting `set` in an
unspecified order when joining; the model fixes the `all_domains` order, and
every property proved about the note is order-independent.) -/
def missing_domains_of (covered : List String) : List String :=
  all_domains.filter (fun d => !(covered.contains d))

/-- The sentence appended to `reasoning_summary` when some domains are
uncovered, and the empty string otherwise. -/
def coverage_suffix (covered : List String) : String :=
  if (missing_domains_of covered).isEmpty then ""
  else
    " No documents found for domain(s): " ++
      String.intercalate ", " (missing_domains_of covered) ++ "."

/-- The domain-coverage step of `ask_question`: when some known domain is
uncovered, `data["reasoning_summary"] += ...` appends the coverage sentence —
and raises `KeyError` when the parsed dict has no `reasoning_summary` key. -/
def apply_coverage_note (covered : List String) (data : ModelJson) :
    Except PyError ModelJson :=
  if (missing_domains_of covered).isEmpty then .ok data
  else
    match data.reasoning_summary with
    | none => .error (.keyError "reasoning_summary")
    | some r => .ok { data with reasoning_summary := some (r ++ coverage_suffix covered) }

/-- The final `RAGAnswer(...)` construction from the (possibly updated) dict
and the synthesizer's own citations. -/
def finalize (citations : List Source) (data : ModelJson) : RAGAnswer :=
  { answer := data.answer.getD "",
    confidence := data.confidence.getD (1 / 2),
    missing_info := data.missing_info.getD [],
    citations := citations,
    reasoning_summary := some (data.reasoning_summary.getD ""),
    suggestions := data.suggestions.getD [] }

/-- The fixed answer returned when no domain yields any retrieval result. -/
def no_info_answer : RAGAnswer :=
  { answer := "No relevant information found.",
    confidence := 0,
    missing_info := ["No matching content found in the uploaded documents."],
    citations := [],
    reasoning_summary := some "No context retrieved.",
    suggestions := ["Upload more relevant documents."] }

/-- The dict `ask_question` works with after the `try`/`except` around
`json.loads`: the parsed dict on success, the fallback dict on failure. -/
def data_of (parse : String → Option ModelJson) (content : String) : ModelJson :=
  match parse content with
  | some d => d
  | none => fallback_data content

/-- The tail of `ask_question` after the model call: enrichment, coverage
note, final `RAGAnswer` construction; a `KeyError` raised by either dict
mutation propagates. -/
def synth_result (search : String → Except Unit (List DDGResult))
    (citations : List Source) (data : ModelJson) : Except PyError RAGAnswer :=
  match apply_enrichment search data with
  | .error e => .error e
  | .ok data1 =>
    match apply_coverage_note (citations.map Source.domain) data1 with
    | .error e => .error e
    | .ok data2 => .ok (finalize citations data2)

/-- `rag_pipeline.ask_question(question, top_k=3)`.  Capabilities: `load` is
the Chroma constructor per domain (`none` models a raised exception), `llm`
maps the user prompt to the raw model response text (the fixed SYSTEM_PROMPT
is baked into it), `parse` is `json.loads` restricted to the fields the code
reads (`none` models a parse failure), `search` is the DuckDuckGo client.
The `ValueError("No vectorstores found. Run ingestion first!")` of the source
is `.error .valueError`. -/
def ask_question (load : String → Option Store) (llm : String → String)
    (parse : String → Option ModelJson)
    (search : String → Except Unit (List DDGResult))
    (question : String) (top_k : Nat := 3) : Except PyError RAGAnswer :=
  if (load_all_vectorstores load).isEmpty then .error .valueError
  else if (collect_results question top_k (load_all_vectorstores load)).isEmpty then
    .ok no_info_answer
  else
    synth_result search
      (citations_of (collect_results question top_k (load_all_vectorstores load)))
      (data_of parse
        (llm (build_prompt question
          (collect_results question top_k (load_all_vectorstores load)))))

/-- The retrieval-time view of a metadata dict written by `ingest_files`: the
stored keys are exactly `filename`, `chunk_id`, `doc_id`, so the `page` key is
absent (`chunk_id` is an integer the read path never consults). -/
def metaOfChunk (m : ChunkMeta) : Meta :=
  { filename := some m.filename, doc_id := some m.doc_id, page := none }

/-!
## Concrete inputs used by witnesses and counterexamples
-/

/-- A store whose similarity search succeeds with a fixed result list. -/
def mkStoreOk (docs : List (RawDoc × ℚ)) : Store := fun _ _ => .ok docs

/-- A loader for which exactly one domain's collection loads. -/
def loadOnly (domain : String) (s : Store) : String → Option Store :=
  fun d => if d = domain then some s else none

/-- A retrieved document of file `a.txt`. -/
def docA : RawDoc :=
  { page_content := "alpha\ntext", meta := { filename := some "a.txt", doc_id := some "ida" } }

/-- A second, later retrieved document of the same file `a.txt`. -/
def docA2 : RawDoc :=
  { page_content := "alpha second", meta := { filename := some "a.txt", doc_id := some "ida2" } }

/-- A retrieved document of file `b.txt`. -/
def docB : RawDoc :=
  { page_content := "beta text", meta := { filename := some "b.txt", doc_id := some "idb" } }

/-- A retrieved document whose metadata has the exact shape `ingest_files`
writes (no `page` key). -/
def docIngested : RawDoc :=
  { page_content := "ingested text",
    meta := metaOfChunk { filename := "p.txt", chunk_id := 0, doc_id := "u0" } }

/-- A model capability returning a fixed raw response. -/
def llmConst : String → String := fun _ => "  raw model text "

/-- A `json.loads` that always fails. -/
def parseNone : String → Option ModelJson := fun _ => none

/-- A search capability that always raises. -/
def searchFail : String → Except Unit (List DDGResult) := fun _ => .error ()

/-- A search capability that always returns one result. -/
def searchOk : String → Except Unit (List DDGResult) :=
  fun _ => .ok [{ body := "enrichment body" }]

/-- A successfully parsed model dict with non-empty `missing_info` and no
`suggestions` key. -/
def jsonNoSuggestions : ModelJson :=
  { answer := some "x", confidence := some 1, missing_info := some ["t"],
    reasoning_summary := some "r" }

/-- A `json.loads` returning `jsonNoSuggestions`. -/
def parseNoSuggestions : String → Option ModelJson := fun _ => some jsonNoSuggestions

/-- A successfully parsed model dict with no `reasoning_summary` key. -/
def jsonNoReasoning : ModelJson :=
  { answer := some "x", confidence := some 1, missing_info := some [],
    suggestions := some [] }

/-- A `json.loads` returning `jsonNoReasoning`. -/
def parseNoReasoning : String → Option ModelJson := fun _ => some jsonNoReasoning

/-- A successfully parsed model dict with every key present and non-empty
`missing_info`. -/
def jsonFull : ModelJson :=
  { answer := some "x", confidence := some (2 / 5), missing_info := some ["topic a"],
    reasoning_summary := some "r", suggestions := some ["s0"] }

/-- A `json.loads` returning `jsonFull`. -/
def parseFull : String → Option ModelJson := fun _ => some jsonFull

/-- A store that loads but holds no content: every search returns no
candidates. -/
def storeEmpty : Store := fun _ _ => .ok []

/-- A store returning two documents of `a.txt` (the second scoring higher)
and one of `b.txt`. -/
def storeAB : Store := mkStoreOk [(docA, 1 / 2), (docA2, 7 / 10), (docB, 9 / 10)]

/-- A store returning one ingestion-shaped document. -/
def storeIngested : Store := mkStoreOk [(docIngested, 1 / 2)]

/-- The answer `ask_question` returns on the duplicate-filename input. -/
def ansW3 : RAGAnswer :=
  (ask_question (loadOnly "finance" storeAB) llmConst parseNone searchFail
    "q" 3).toOption.getD no_info_answer

/-- The answer `ask_question` returns on the fully parsed input with only the
finance domain covered. -/
def ansW6 : RAGAnswer :=
  (ask_question (loadOnly "finance" storeAB) llmConst parseFull searchFail
    "q" 3).toOption.getD no_info_answer

/-- The answer `ask_question` returns on the ingestion-shaped input. -/
def ansW10 : RAGAnswer :=
  (ask_question (loadOnly "hr" storeIngested) llmConst parseNone searchFail
    "q" 3).toOption.getD no_info_answer

/-- The single citation of `ansW10`. -/
def cW10 : Source := ansW10.citations.getD 0 { doc_id := "", filename := "" }

/-!
## Helper lemmas
-/

theorem string_mk_data (s : String) : String.mk s.data = s := by
  cases s
  rfl

theorem string_append_empty (s : String) : s ++ "" = s := by
  cases s
  show String.mk _ = _
  simp [String.append]

theorem dedupAux_sublist (l : List TaggedDoc) :
    ∀ seen, List.Sublist (dedupAux l seen) l := by
  induction l with
  | nil =>
    intro seen
    simp [dedupAux]
  | cons d rest ih =>
    intro seen
    simp only [dedupAux]
    split
    · exact (ih seen).trans (List.sublist_cons_self d rest)
    · exact (ih _).cons₂ d

theorem dedupAux_keys_nodup (l : List TaggedDoc) :
    ∀ seen, ((dedupAux l seen).map filenameKey).Nodup ∧
      ∀ x ∈ (dedupAux l seen).map filenameKey, x ∉ seen := by
  induction l with
  | nil =>
    intro seen
    simp [dedupAux]
  | cons d rest ih =>
    intro seen
    simp only [dedupAux]
    split
    · exact ih seen
    · rename_i hni
      obtain ⟨h1, h2⟩ := ih (filenameKey d :: seen)
      refine ⟨?_, ?_⟩
      · simp only [List.map_cons, List.nodup_cons]
        exact ⟨fun hx => (h2 _ hx) (List.mem_cons_self _ _), h1⟩
      · intro x hx hxs
        simp only [List.map_cons, List.mem_cons] at hx
        rcases hx with rfl | hx
        · exact hni hxs
        · exact h2 x hx (List.mem_cons_of_mem _ hxs)

theorem dedupAux_find? (fq : String) (l : List TaggedDoc) :
    ∀ seen, fq ∉ seen →
      (dedupAux l seen).find? (fun d => filenameKey d == fq) =
        l.find? (fun d => filenameKey d == fq) := by
  induction l with
  | nil =>
    intro seen _
    simp [dedupAux]
  | cons d rest ih =>
    intro seen hq
    simp only [dedupAux]
    split
    · rename_i hmem
      have hne : (filenameKey d == fq) = false := by
        simp only [beq_eq_false_iff_ne]
        intro he
        exact hq (he ▸ hmem)
      rw [ih seen hq, List.find?_cons, hne]
    · rename_i hmem
      rw [List.find?_cons, List.find?_cons]
      cases he : (filenameKey d == fq) with
      | true => rfl
      | false =>
        apply ih
        intro hc
        rcases List.mem_cons.mp hc with rfl | hc
        · simp at he
        · exact hq hc

theorem collect_results_nil (q : String) (k : Nat) (stores : List (String × Store))
    (h : ∀ p ∈ stores, p.2 q k = .ok []) : collect_results q k stores = [] := by
  induction stores with
  | nil => rfl
  | cons p rest ih =>
    obtain ⟨dom, store⟩ := p
    simp only [collect_results]
    have hs : store q k = Except.ok [] := h (dom, store) (List.mem_cons_self _ _)
    rw [hs]
    simpa using ih fun p hp => h p (List.mem_cons_of_mem _ hp)

theorem load_stores_eq_nil (load : String → Option Store) (ds : List String)
    (h : ∀ d ∈ ds, load d = none) : load_stores load ds = [] := by
  induction ds with
  | nil => rfl
  | cons d rest ih =>
    simp only [load_stores, h d (List.mem_cons_self _ _)]
    simpa using ih fun x hx => h x (List.mem_cons_of_mem _ hx)

theorem enrich_loop_eq (search : String → Except Unit (List DDGResult)) :
    ∀ topics : List String,
      enrich_loop search topics = topics.filterMap (fun t =>
        match search t with
        | .ok (r :: _) =>
          some ("Auto-enriched info for '" ++ t ++ "': " ++ String.mk (r.body.data.take 200))
        | _ => none) := by
  intro topics
  induction topics with
  | nil => rfl
  | cons t rest ih =>
    simp only [enrich_loop, List.filterMap_cons]
    cases hs : search t with
    | error e => simpa using ih
    | ok results =>
      cases results with
      | nil => simpa using ih
      | cons r rs => simpa using ih

theorem ingest_foldl_total (extract : String → String) (uuid : Nat → String)
    (files : List String) :
    ∀ st : IngestState,
      (files.foldl (ingest_step extract uuid) st).total_chunks =
        st.total_chunks +
          ((files.filter (fun f => !(pyStrip (extract f) == ""))).map
            (fun f => (split_text (extract f)).length)).sum := by
  induction files with
  | nil =>
    intro st
    simp
  | cons f rest ih =>
    intro st
    simp only [List.foldl_cons]
    by_cases hf : pyStrip (extract f) = ""
    · have hb : (!(pyStrip (extract f) == "")) = false := by simp [hf]
      rw [show List.filter (fun f => !(pyStrip (extract f) == "")) (f :: rest) =
          List.filter (fun f => !(pyStrip (extract f) == "")) rest from
        List.filter_cons_of_neg (by simp [hb])]
      have hstep : ingest_step extract uuid st f = st := by
        simp [ingest_step, hf]
      rw [hstep, ih st]
    · have hb : (!(pyStrip (extract f) == "")) = true := by simp [hf]
      rw [show List.filter (fun f => !(pyStrip (extract f) == "")) (f :: rest) =
          f :: List.filter (fun f => !(pyStrip (extract f) == "")) rest from
        List.filter_cons_of_pos hb]
      have hstep : (ingest_step extract uuid st f).total_chunks =
          st.total_chunks + (split_text (extract f)).length := by
        simp [ingest_step, hf]
      rw [ih (ingest_step extract uuid st f), hstep]
      simp only [List.map_cons, List.sum_cons]
      omega

theorem ingest_foldl_entries (extract : String → String) (uuid : Nat → String)
    (files : List String) :
    ∀ st : IngestState,
      (files.foldl (ingest_step extract uuid) st).entries.length =
        st.entries.length +
          ((files.filter (fun f => !(pyStrip (extract f) == ""))).map
            (fun f => (split_text (extract f)).length)).sum := by
  induction files with
  | nil =>
    intro st
    simp
  | cons f rest ih =>
    intro st
    simp only [List.foldl_cons]
    by_cases hf : pyStrip (extract f) = ""
    · have hb : (!(pyStrip (extract f) == "")) = false := by simp [hf]
      rw [show List.filter (fun f => !(pyStrip (extract f) == "")) (f :: rest) =
          List.filter (fun f => !(pyStrip (extract f) == "")) rest from
        List.filter_cons_of_neg (by simp [hb])]
      have hstep : ingest_step extract uuid st f = st := by
        simp [ingest_step, hf]
      rw [hstep, ih st]
    · have hb : (!(pyStrip (extract f) == "")) = true := by simp [hf]
      rw [show List.filter (fun f => !(pyStrip (extract f) == "")) (f :: rest) =
          f :: List.filter (fun f => !(pyStrip (extract f) == "")) rest from
        List.filter_cons_of_pos hb]
      have hstep : (ingest_step extract uuid st f).entries.length =
          st.entries.length + (split_text (extract f)).length := by
        simp only [ingest_step, hf]
        simp [List.length_zip, List.enum_length]
      rw [ih (ingest_step extract uuid st f), hstep]
      simp only [List.map_cons, List.sum_cons]
      omega

theorem split_text_le (text : String) (h : text.length ≤ 1200) :
    split_text text = [text] := by
  unfold split_text
  have hl : text.data.length ≤ 1200 := h
  simp only [split_rec, hl, if_pos]
  simp [string_mk_data]

theorem ask_ok_elim (load : String → Option Store) (llm : String → String)
    (parse : String → Option ModelJson) (search : String → Except Unit (List DDGResult))
    (q : String) (k : Nat) (ans : RAGAnswer)
    (h : ask_question load llm parse search q k = .ok ans) :
    (collect_results q k (load_all_vectorstores load) = [] ∧ ans = no_info_answer) ∨
    (∃ d1 d2,
      apply_enrichment search
        (data_of parse (llm (build_prompt q (collect_results q k (load_all_vectorstores load))))) =
          .ok d1 ∧
      apply_coverage_note
        ((citations_of (collect_results q k (load_all_vectorstores load))).map Source.domain)
        d1 = .ok d2 ∧
      ans = finalize (citations_of (collect_results q k (load_all_vectorstores load))) d2) := by
  unfold ask_question at h
  split at h
  · exact absurd h (by simp)
  · split at h
    · rename_i h2
      injection h with h'
      exact Or.inl ⟨List.isEmpty_iff.mp h2, h'.symm⟩
    · right
      unfold synth_result at h
      split at h
      · exact absurd h (by simp)
      · rename_i d1 hd1
        split at h
        · exact absurd h (by simp)
        · rename_i d2 hd2
          injection h with h'
          exact ⟨d1, d2, hd1, hd2, h'.symm⟩

theorem synth_result_ok (search : String → Except Unit (List DDGResult))
    (cits : List Source) (data d1 d2 : ModelJson)
    (h1 : apply_enrichment search data = .ok d1)
    (h2 : apply_coverage_note (cits.map Source.domain) d1 = .ok d2) :
    synth_result search cits data = .ok (finalize cits d2) := by
  unfold synth_result
  simp only [h1, h2]

/-!
## Claims
-/

/-- C2: for every question, if every domain's similarity search yields no
candidates (e.g., zero ingested content), `ask_question` returns immediately —
without invoking the reasoning model (the result is the same for every model,
parser and search capability, none of which is consumed) — the fixed
`no_info_answer`: answer "No relevant information found.", confidence 0.0, the
fixed single missing_info entry, no citations, and the upload-more-documents
suggestion. -/
theorem C2_empty_retrieval_fixed_answer (load : String → Option Store)
    (q : String) (k : Nat)
    (h1 : (load_all_vectorstores load).isEmpty = false)
    (h2 : ∀ p ∈ load_all_vectorstores load, p.2 q k = Except.ok []) :
    ∀ (llm : String → String) (parse : String → Option ModelJson)
      (search : String → Except Unit (List DDGResult)),
      ask_question load llm parse search q k = .ok no_info_answer := by
  intro llm parse search
  have hc : collect_results q k (load_all_vectorstores load) = [] :=
    collect_results_nil q k _ h2
  unfold ask_question
  simp [h1, hc]

/-- C2 witness: on a loader whose only collection is an empty `hr` store, the
fixed answer is returned. -/
theorem C2_empty_retrieval_fixed_answer_witness :
    ask_question (loadOnly "hr" storeEmpty) llmConst parseNone searchFail "q" 3 =
      .ok no_info_answer := by
  refine C2_empty_retrieval_fixed_answer (loadOnly "hr" storeEmpty) "q" 3 rfl ?_
    llmConst parseNone searchFail
  intro p hp
  have he : load_all_vectorstores (loadOnly "hr" storeEmpty) = [("hr", storeEmpty)] := rfl
  rw [he] at hp
  simp only [List.mem_singleton] at hp
  subst hp
  rfl

/-- C1: for every question and every raw model response that fails to parse as
JSON, `ask_question` does not raise: it returns an answer whose `answer` is
the raw model text stripped, whose confidence is 0.5, whose `missing_info` is
empty, and whose `reasoning_summary` is "Partial fallback response." followed
by the (possibly empty) domain-coverage sentence. -/
theorem C1_parse_failure_fallback (load : String → Option Store)
    (llm : String → String) (parse : String → Option ModelJson)
    (search : String → Except Unit (List DDGResult)) (q : String) (k : Nat)
    (h1 : (load_all_vectorstores load).isEmpty = false)
    (h2 : (collect_results q k (load_all_vectorstores load)).isEmpty = false)
    (hp : parse (llm (build_prompt q (collect_results q k (load_all_vectorstores load)))) = none) :
    ask_question load llm parse search q k = .ok
      { answer := pyStrip (llm (build_prompt q (collect_results q k (load_all_vectorstores load)))),
        confidence := 1 / 2,
        missing_info := [],
        citations := citations_of (collect_results q k (load_all_vectorstores load)),
        reasoning_summary := some ("Partial fallback response." ++
          coverage_suffix
            ((citations_of (collect_results q k (load_all_vectorstores load))).map
              Source.domain)),
        suggestions := [] } := by
  have hd : data_of parse (llm (build_prompt q (collect_results q k (load_all_vectorstores load)))) =
      fallback_data (llm (build_prompt q (collect_results q k (load_all_vectorstores load)))) := by
    unfold data_of
    rw [hp]
  unfold ask_question
  simp only [h1, Bool.false_eq_true, if_false, h2, hd]
  have he : apply_enrichment search
      (fallback_data (llm (build_prompt q (collect_results q k (load_all_vectorstores load))))) =
      .ok (fallback_data (llm (build_prompt q (collect_results q k (load_all_vectorstores load))))) := rfl
  by_cases hm : (missing_domains_of
      ((citations_of (collect_results q k (load_all_vectorstores load))).map
        Source.domain)).isEmpty = true
  · have hcov : apply_coverage_note
        ((citations_of (collect_results q k (load_all_vectorstores load))).map Source.domain)
        (fallback_data (llm (build_prompt q (collect_results q k (load_all_vectorstores load))))) =
        .ok (fallback_data (llm (build_prompt q (collect_results q k (load_all_vectorstores load))))) := by
      unfold apply_coverage_note
      rw [if_pos hm]
    rw [synth_result_ok search _ _ _ _ he hcov]
    simp [finalize, fallback_data, coverage_suffix, hm, string_append_empty]
  · have hcov : apply_coverage_note
        ((citations_of (collect_results q k (load_all_vectorstores load))).map Source.domain)
        (fallback_data (llm (build_prompt q (collect_results q k (load_all_vectorstores load))))) =
        .ok { fallback_data
                (llm (build_prompt q (collect_results q k (load_all_vectorstores load)))) with
              reasoning_summary := some ("Partial fallback response." ++
                coverage_suffix
                  ((citations_of (collect_results q k (load_all_vectorstores load))).map
                    Source.domain)) } := by
      unfold apply_coverage_note
      rw [if_neg hm]
      rfl
    rw [synth_result_ok search _ _ _ _ he hcov]
    simp [finalize, fallback_data]

/-- C1 witness: on the concrete duplicate-filename store with a parser that
always fails, the fallback answer is returned. -/
theorem C1_parse_failure_fallback_witness :
    ask_question (loadOnly "finance" storeAB) llmConst parseNone searchFail "q" 3 = .ok
      { answer := pyStrip (llmConst (build_prompt "q"
          (collect_results "q" 3 (load_all_vectorstores (loadOnly "finance" storeAB))))),
        confidence := 1 / 2,
        missing_info := [],
        citations := citations_of
          (collect_results "q" 3 (load_all_vectorstores (loadOnly "finance" storeAB))),
        reasoning_summary := some ("Partial fallback response." ++
          coverage_suffix
            ((citations_of (collect_results "q" 3
              (load_all_vectorstores (loadOnly "finance" storeAB)))).map Source.domain)),
        suggestions := [] } :=
  C1_parse_failure_fallback (loadOnly "finance" storeAB) llmConst parseNone searchFail
    "q" 3 rfl rfl rfl

/-- C3: the citations of any returned answer are the retrieval candidates
deduplicated by filename — first occurrence (in retrieval order) wins, the
retained list is a sublist of the candidate list with pairwise-distinct
filenames, the retained entry for each filename is the candidate list's first
entry with that filename (so a later, possibly higher-scoring one is
discarded), and each retained candidate contributes one citation (`mkSource`)
and one context block of the form `[filename | domain | score=S] → snippet`
with the snippet the first 300 characters of the chunk text, newlines replaced
by spaces. -/
theorem C3_citations_dedup_by_filename (load : String → Option Store)
    (llm : String → String) (parse : String → Option ModelJson)
    (search : String → Except Unit (List DDGResult)) (q : String) (k : Nat)
    (ans : RAGAnswer)
    (h : ask_question load llm parse search q k = .ok ans) :
    ans.citations =
      (dedupByFile (collect_results q k (load_all_vectorstores load))).map mkSource ∧
    (ans.citations.map Source.filename).Nodup ∧
    List.Sublist (dedupByFile (collect_results q k (load_all_vectorstores load)))
      (collect_results q k (load_all_vectorstores load)) ∧
    (∀ fn, (dedupByFile (collect_results q k (load_all_vectorstores load))).find?
        (fun d => filenameKey d == fn) =
      (collect_results q k (load_all_vectorstores load)).find?
        (fun d => filenameKey d == fn)) ∧
    (∀ d ∈ dedupByFile (collect_results q k (load_all_vectorstores load)),
      mkBlock d = "[" ++ filenameKey d ++ " | " ++ d.domain ++ " | score=" ++
        toString d.score ++ "] → " ++ snippet_of d.page_content) := by
  have hc : ans.citations =
      citations_of (collect_results q k (load_all_vectorstores load)) := by
    rcases ask_ok_elim load llm parse search q k ans h with ⟨hnil, rfl⟩ | ⟨d1, d2, _, _, rfl⟩
    · rw [hnil]
      rfl
    · rfl
  refine ⟨?_, ?_, dedupAux_sublist _ [], ?_, ?_⟩
  · rw [hc]
    rfl
  · rw [hc]
    unfold citations_of dedupByFile
    rw [List.map_map]
    exact (dedupAux_keys_nodup (collect_results q k (load_all_vectorstores load)) []).1
  · intro fn
    exact dedupAux_find? fn _ [] (by simp)
  · intro d _
    rfl

/-- C3 witness: on a store yielding two documents of `a.txt` (the second
scoring higher) and one of `b.txt`, the returned citations have pairwise
distinct filenames, the retained `a.txt` entry is the first one, and the
citations are exactly the deduplicated candidates. -/
theorem C3_citations_dedup_by_filename_witness :
    (ansW3.citations.map Source.filename).Nodup ∧
    (dedupByFile (collect_results "q" 3
        (load_all_vectorstores (loadOnly "finance" storeAB)))).find?
        (fun d => filenameKey d == "a.txt") =
      (collect_results "q" 3 (load_all_vectorstores (loadOnly "finance" storeAB))).find?
        (fun d => filenameKey d == "a.txt") ∧
    ansW3.citations =
      (dedupByFile (collect_results "q" 3
        (load_all_vectorstores (loadOnly "finance" storeAB)))).map mkSource := by
  have h := C3_citations_dedup_by_filename (loadOnly "finance" storeAB) llmConst parseNone
    searchFail "q" 3 ansW3 rfl
  exact ⟨h.2.1, h.2.2.2.1 "a.txt", h.1⟩

/-- C4 counterexample: a model response that parses successfully with
non-empty `missing_info` but no `suggestions` key, together with a successful
enrichment, makes `ask_question` raise `KeyError("suggestions")`
(`data["suggestions"].extend(auto_data)` on a dict without that key) instead
of returning an answer — the claim's "without raising, regardless of whether
the parsed JSON contains a suggestions field" is false. -/
theorem C4_counterexample :
    ask_question (loadOnly "finance" storeAB) llmConst parseNoSuggestions searchOk "q" 3 =
      .error (.keyError "suggestions") := rfl

/-- C4 (amended): for every model response that parses with non-empty
`missing_info`, **provided the parsed JSON contains a `suggestions` field (and
a `reasoning_summary` field for the coverage step)**, `ask_question` invokes
the Gap Enricher on the `missing_info` list and returns the parsed suggestions
with the enricher's results appended, without raising. -/
theorem C4_enrichment_appended (load : String → Option Store) (llm : String → String)
    (parse : String → Option ModelJson) (search : String → Except Unit (List DDGResult))
    (q : String) (k : Nat) (j : ModelJson) (s : List String) (r : String)
    (h1 : (load_all_vectorstores load).isEmpty = false)
    (h2 : (collect_results q k (load_all_vectorstores load)).isEmpty = false)
    (hp : parse (llm (build_prompt q (collect_results q k (load_all_vectorstores load)))) =
      some j)
    (hmi : truthyList j.missing_info = true)
    (hs : j.suggestions = some s)
    (hr : j.reasoning_summary = some r) :
    (ask_question load llm parse search q k).map RAGAnswer.suggestions =
      .ok (s ++ auto_enrich search (j.missing_info.getD [])) := by
  have hd : data_of parse
      (llm (build_prompt q (collect_results q k (load_all_vectorstores load)))) = j := by
    unfold data_of
    rw [hp]
  unfold ask_question
  simp only [h1, Bool.false_eq_true, if_false, h2, hd]
  by_cases hempty : (auto_enrich search (j.missing_info.getD [])).isEmpty = true
  · have hauto : auto_enrich search (j.missing_info.getD []) = [] :=
      List.isEmpty_iff.mp hempty
    have he : apply_enrichment search j = .ok j := by
      unfold apply_enrichment
      simp only [hmi, if_true]
      rw [if_pos hempty]
    by_cases hm : (missing_domains_of
        ((citations_of (collect_results q k (load_all_vectorstores load))).map
          Source.domain)).isEmpty = true
    · have hcov : apply_coverage_note
          ((citations_of (collect_results q k (load_all_vectorstores load))).map
            Source.domain) j = .ok j := by
        unfold apply_coverage_note
        rw [if_pos hm]
      rw [synth_result_ok search _ _ _ _ he hcov]
      simp [finalize, hs, hauto, Except.map]
    · have hcov : apply_coverage_note
          ((citations_of (collect_results q k (load_all_vectorstores load))).map
            Source.domain) j = .ok { j with reasoning_summary := some (r ++
              coverage_suffix
                ((citations_of (collect_results q k (load_all_vectorstores load))).map
                  Source.domain)) } := by
        unfold apply_coverage_note
        rw [if_neg hm]
        simp only [hr]
      rw [synth_result_ok search _ _ _ _ he hcov]
      simp [finalize, hs, hauto, Except.map]
  · have he : apply_enrichment search j =
        .ok { j with suggestions := some (s ++ auto_enrich search (j.missing_info.getD [])) } := by
      unfold apply_enrichment
      simp only [hmi, if_true]
      rw [if_neg hempty]
      simp only [hs]
    by_cases hm : (missing_domains_of
        ((citations_of (collect_results q k (load_all_vectorstores load))).map
          Source.domain)).isEmpty = true
    · have hcov : apply_coverage_note
          ((citations_of (collect_results q k (load_all_vectorstores load))).map
            Source.domain)
          { j with suggestions := some (s ++ auto_enrich search (j.missing_info.getD [])) } =
          .ok { j with suggestions := some (s ++ auto_enrich search (j.missing_info.getD [])) } := by
        unfold apply_coverage_note
        rw [if_pos hm]
      rw [synth_result_ok search _ _ _ _ he hcov]
      simp [finalize, Except.map]
    · have hcov : apply_coverage_note
          ((citations_of (collect_results q k (load_all_vectorstores load))).map
            Source.domain)
          { j with suggestions := some (s ++ auto_enrich search (j.missing_info.getD [])) } =
          .ok { j with
                suggestions := some (s ++ auto_enrich search (j.missing_info.getD [])),
                reasoning_summary := some (r ++
                  coverage_suffix
                    ((citations_of (collect_results q k (load_all_vectorstores load))).map
                      Source.domain)) } := by
        unfold apply_coverage_note
        rw [if_neg hm]
        simp only [hr]
      rw [synth_result_ok search _ _ _ _ he hcov]
      simp [finalize, Except.map]

/-- C4 witness: on the fully keyed parsed dict and a succeeding search, the
returned suggestions are the parsed ones followed by the enrichment result. -/
theorem C4_enrichment_appended_witness :
    (ask_question (loadOnly "finance" storeAB) llmConst parseFull searchOk "q" 3).map
      RAGAnswer.suggestions =
      .ok (["s0"] ++ auto_enrich searchOk (jsonFull.missing_info.getD [])) :=
  C4_enrichment_appended (loadOnly "finance" storeAB) llmConst parseFull searchOk
    "q" 3 jsonFull ["s0"] "r" rfl rfl rfl rfl rfl rfl

/-- C5 counterexample: with an index store available (the finance collection
loads and returns candidates), a successfully parsed model response lacking a
`reasoning_summary` key makes `ask_question` raise
`KeyError("reasoning_summary")` (`data["reasoning_summary"] += ...`): the
no-index `ValueError` is therefore not the only fatal failure of the ask
path. -/
theorem C5_counterexample :
    (load_all_vectorstores (loadOnly "finance" storeAB)).isEmpty = false ∧
    ask_question (loadOnly "finance" storeAB) llmConst parseNoReasoning searchFail "q" 3 =
      .error (.keyError "reasoning_summary") :=
  ⟨rfl, rfl⟩

/-- C5 (amended): when no index store is available at all (no domain
collection can be loaded), `ask_question` raises the hard
`ValueError("No vectorstores found. Run ingestion first!")` to its caller
rather than returning any answer; this is however not the only fatal failure
category of the ask path (see the counterexample: a parsed model response
lacking a `reasoning_summary` or `suggestions` key can also raise a
`KeyError`). -/
theorem C5_no_store_raises (load : String → Option Store) (llm : String → String)
    (parse : String → Option ModelJson) (search : String → Except Unit (List DDGResult))
    (q : String) (k : Nat)
    (h : ∀ d ∈ domain_collections, load d = none) :
    ask_question load llm parse search q k = .error .valueError := by
  have hl : load_all_vectorstores load = [] := load_stores_eq_nil load domain_collections h
  unfold ask_question
  rw [hl]
  rfl

/-- C5 witness: a loader for which every domain's Chroma construction fails. -/
theorem C5_no_store_raises_witness :
    ask_question (fun _ => none) llmConst parseNone searchFail "q" 3 =
      .error .valueError :=
  C5_no_store_raises (fun _ => none) llmConst parseNone searchFail "q" 3 (fun _ _ => rfl)

/-- C6 counterexample: when a collection loads but no candidate is retrieved,
`ask_question` returns the fixed `no_info_answer` whose citations are empty —
so the domain "hr" appears in no citation — yet its `reasoning_summary` is the
fixed "No context retrieved." with no appended coverage sentence (it does not
even contain the substring "hr"): the claim's "for every set of final
citations" is false on the empty-retrieval path. -/
theorem C6_counterexample :
    ask_question (loadOnly "hr" storeEmpty) llmConst parseNone searchFail "q2" 3 =
      .ok no_info_answer ∧
    no_info_answer.citations = [] ∧
    ¬ List.IsInfix "hr".data (no_info_answer.reasoning_summary.getD "").data :=
  ⟨rfl, rfl, by decide⟩

/-- C6 (amended): **whenever candidates were retrieved** (the synthesis path),
for every known domain absent from the domains of the final citations, the
returned `reasoning_summary` ends with the coverage sentence built from
exactly the uncovered known domains; in particular it covers "hr" in the
uncovered list whenever no citation has domain "hr".  (The Python code joins
a `set` in unspecified order; the properties stated are order-independent.) -/
theorem C6_coverage_note_names_missing (load : String → Option Store)
    (llm : String → String) (parse : String → Option ModelJson)
    (search : String → Except Unit (List DDGResult)) (q : String) (k : Nat)
    (ans : RAGAnswer)
    (hne : (collect_results q k (load_all_vectorstores load)).isEmpty = false)
    (h : ask_question load llm parse search q k = .ok ans) :
    (∀ d, d ∈ missing_domains_of (ans.citations.map Source.domain) ↔
        (d ∈ all_domains ∧ d ∉ ans.citations.map Source.domain)) ∧
    ((missing_domains_of (ans.citations.map Source.domain)).isEmpty = false →
      ∃ base, ans.reasoning_summary =
        some (base ++ coverage_suffix (ans.citations.map Source.domain))) ∧
    ("hr" ∉ ans.citations.map Source.domain →
      "hr" ∈ missing_domains_of (ans.citations.map Source.domain)) := by
  rcases ask_ok_elim load llm parse search q k ans h with ⟨hnil, _⟩ | ⟨d1, d2, he, hcov, hans⟩
  · rw [hnil] at hne
    simp at hne
  · have hcits : ans.citations =
        citations_of (collect_results q k (load_all_vectorstores load)) := by
      rw [hans]
      rfl
    refine ⟨?_, ?_, ?_⟩
    · intro d
      unfold missing_domains_of
      simp [List.mem_filter]
    · intro hmne
      have hmne' : ¬ ((missing_domains_of
          ((citations_of (collect_results q k (load_all_vectorstores load))).map
            Source.domain)).isEmpty = true) := by
        rw [← hcits]
        simp [hmne]
      unfold apply_coverage_note at hcov
      rw [if_neg hmne'] at hcov
      cases hrs : d1.reasoning_summary with
      | none =>
        rw [hrs] at hcov
        exact absurd hcov (by simp)
      | some r =>
        rw [hrs] at hcov
        simp only at hcov
        injection hcov with hd2
        refine ⟨r, ?_⟩
        rw [hans, ← hd2]
        rfl
    · intro hnm
      unfold missing_domains_of
      simp only [List.mem_filter]
      refine ⟨by decide, by simpa using hnm⟩

/-- C6 witness: on the synthesis path with only finance-domain citations, "hr"
is among the uncovered domains of the coverage sentence. -/
theorem C6_coverage_note_names_missing_witness :
    "hr" ∈ missing_domains_of (ansW6.citations.map Source.domain) :=
  (C6_coverage_note_names_missing (loadOnly "finance" storeAB) llmConst parseFull
    searchFail "q" 3 ansW6 rfl rfl).2.2 (by decide)

/-- C7: `ingest_files` skips exactly the files whose extracted text is empty
or whitespace-only (they contribute nothing, and processing continues with the
remaining files of the batch), and the returned count equals the total number
of chunks produced — which is also the number of entries upserted — across the
non-skipped files of the call. -/
theorem C7_batch_total_count (extract : String → String) (uuid : Nat → String)
    (files : List String) (category : String) :
    (ingest_files extract uuid files category).total_chunks =
      ((files.filter (fun f => !(pyStrip (extract f) == ""))).map
        (fun f => (split_text (extract f)).length)).sum ∧
    (ingest_files extract uuid files category).entries.length =
      (ingest_files extract uuid files category).total_chunks := by
  have h1 := ingest_foldl_total extract uuid files
    { collection := "docs_" ++ category, entries := [], total_chunks := 0, next_id := 0 }
  have h2 := ingest_foldl_entries extract uuid files
    { collection := "docs_" ++ category, entries := [], total_chunks := 0, next_id := 0 }
  simp only [List.length_nil, Nat.zero_add] at h1 h2
  unfold ingest_files
  exact ⟨h1, h2.trans h1.symm⟩

/-- C8: for a batch of files each extracting to non-empty text (in the spec's
sense of §7, where whitespace-only text counts as empty content) shorter than
the chunk_size of 1200 characters, the Chunker produces exactly one chunk per
file and `ingest_files` returns the number of files. -/
theorem C8_one_chunk_per_short_file (extract : String → String) (uuid : Nat → String)
    (files : List String) (category : String)
    (h : ∀ f ∈ files, pyStrip (extract f) ≠ "" ∧ (extract f).length < 1200) :
    (ingest_files extract uuid files category).total_chunks = files.length := by
  have ht := ingest_foldl_total extract uuid files
    { collection := "docs_" ++ category, entries := [], total_chunks := 0, next_id := 0 }
  unfold ingest_files
  rw [ht]
  have hfilter : files.filter (fun f => !(pyStrip (extract f) == "")) = files :=
    List.filter_eq_self.mpr (fun f hf => by simp [(h f hf).1])
  rw [hfilter]
  have hmap : files.map (fun f => (split_text (extract f)).length) =
      files.map (fun _ => 1) :=
    List.map_congr_left (fun f hf => by
      rw [split_text_le _ (Nat.le_of_lt (h f hf).2)]
      rfl)
  rw [hmap]
  simp

/-- C8 witness: two txt files with short non-empty text yield a count of 2. -/
theorem C8_one_chunk_per_short_file_witness :
    (ingest_files (fun _ => "short doc text") (fun n => toString n)
      ["a.txt", "b.txt"] "general").total_chunks = 2 := by
  have hh : ∀ f ∈ (["a.txt", "b.txt"] : List String),
      pyStrip ((fun (_ : String) => "short doc text") f) ≠ "" ∧
      ((fun (_ : String) => "short doc text") f : String).length < 1200 := by
    intro f _
    exact ⟨show pyStrip "short doc text" ≠ "" by decide,
      show ("short doc text" : String).length < 1200 by decide⟩
  exact C8_one_chunk_per_short_file (fun _ => "short doc text") (fun n => toString n)
    ["a.txt", "b.txt"] "general" hh

/-- C9: `auto_enrich` keeps exactly the topics whose search succeeds with at
least one result — each contributing the one formatted string built from the
first 200 characters of the result body — and skips (without propagating any
exception) every topic whose search raises or returns nothing; in particular
`enrich(["X"])` returns `[]` when the search raises for "X". -/
theorem C9_enrich_skips_failing_topics (search : String → Except Unit (List DDGResult))
    (topics : List String) (hX : search "X" = .error ()) :
    auto_enrich search topics = topics.filterMap (fun t =>
      match search t with
      | .ok (r :: _) =>
        some ("Auto-enriched info for '" ++ t ++ "': " ++ String.mk (r.body.data.take 200))
      | _ => none) ∧
    auto_enrich search ["X"] = [] := by
  constructor
  · unfold auto_enrich
    cases topics with
    | nil => rfl
    | cons t rest =>
      rw [if_neg (by simp)]
      exact enrich_loop_eq search (t :: rest)
  · unfold auto_enrich
    rw [if_neg (by simp)]
    unfold enrich_loop
    rw [hX]
    rfl

/-- C9 witness: with an always-raising search capability, enrichment of any
topic list is empty. -/
theorem C9_enrich_skips_failing_topics_witness :
    auto_enrich searchFail ["Y"] = (["Y"] : List String).filterMap (fun t =>
      match searchFail t with
      | .ok (r :: _) =>
        some ("Auto-enriched info for '" ++ t ++ "': " ++ String.mk (r.body.data.take 200))
      | _ => none) ∧
    auto_enrich searchFail ["X"] = [] :=
  C9_enrich_skips_failing_topics searchFail ["Y"] rfl

/-- C10: the metadata `ingest_files` writes never contains a `page` key, and
for every retrieval candidate carrying such ingestion-shaped metadata the
citation built by `ask_question` has `page = 1` (`meta.get("page", 1)`), even
though the `Source` schema declares `page` as optional with default `None`. -/
theorem C10_page_defaults_to_one (load : String → Option Store)
    (llm : String → String) (parse : String → Option ModelJson)
    (search : String → Except Unit (List DDGResult)) (q : String) (k : Nat)
    (ans : RAGAnswer)
    (hmeta : ∀ d ∈ collect_results q k (load_all_vectorstores load),
      ∃ m : ChunkMeta, d.meta = metaOfChunk m)
    (h : ask_question load llm parse search q k = .ok ans) :
    (∀ c ∈ ans.citations, c.page = some 1) ∧
    (∀ (extract : String → String) (uuid : Nat → String) (files : List String)
      (category : String),
      ∀ e ∈ (ingest_files extract uuid files category).entries,
        (metaOfChunk e.2).page = none) ∧
    (({ doc_id := "", filename := "" } : Source).page = none) := by
  refine ⟨?_, fun _ _ _ _ _ _ => rfl, rfl⟩
  intro c hc
  rcases ask_ok_elim load llm parse search q k ans h with ⟨_, rfl⟩ | ⟨d1, d2, _, _, rfl⟩
  · simp [no_info_answer] at hc
  · have hc' : c ∈ citations_of (collect_results q k (load_all_vectorstores load)) := hc
    unfold citations_of at hc'
    rcases List.mem_map.mp hc' with ⟨d, hd, rfl⟩
    have hd' : d ∈ collect_results q k (load_all_vectorstores load) :=
      (dedupAux_sublist _ []).subset hd
    rcases hmeta d hd' with ⟨m, hm⟩
    simp [mkSource, hm, metaOfChunk]

/-- C10 witness: the single citation built from an ingestion-shaped candidate
carries page 1. -/
theorem C10_page_defaults_to_one_witness : cW10.page = some 1 := by
  have hmeta : ∀ d ∈ collect_results "q" 3
      (load_all_vectorstores (loadOnly "hr" storeIngested)),
      ∃ m : ChunkMeta, d.meta = metaOfChunk m := by
    intro d hd
    have hc : collect_results "q" 3 (load_all_vectorstores (loadOnly "hr" storeIngested)) =
        [tagDoc "hr" (docIngested, 1 / 2)] := rfl
    rw [hc] at hd
    simp only [List.mem_singleton] at hd
    subst hd
    exact ⟨{ filename := "p.txt", chunk_id := 0, doc_id := "u0" }, rfl⟩
  refine (C10_page_defaults_to_one (loadOnly "hr" storeIngested) llmConst parseNone
    searchFail "q" 3 ansW10 hmeta rfl).1 cW10 ?_
  have hx : ansW10.citations = [cW10] := rfl
  rw [hx]
  exact List.mem_singleton_self _
